import Mathlib

/-!
Verification of the `easy-spring` spring-animation engine.

The TypeScript source (`src/EasySpring.ts`) is embedded shallowly:

* numbers become `ℚ` (the claims concern the algebra of the integrator,
  not floating-point rounding),
* the global `EasySpring` object becomes an explicit state `EasyState`,
* the per-instance closures of `controller` become a heap
  (`EasyState.springs`, never shrinking, mirroring closure lifetime)
  together with the registry key list `EasyState.registered`
  (mirroring the `Map`, which `remove` deletes from),
* consumer callbacks become trace events (`Ev`): an event records that
  the corresponding optional-callback invocation point was reached,
* the platform frame service becomes the `raf` flag (a pending request
  exists) plus an explicit `tick t` operation that may only fire while
  `raf` is set.
-/

/-- Partial configuration, source `SpringConfig` (all fields optional). -/
structure SpringConfig where
  mass : Option ℚ
  tension : Option ℚ
  friction : Option ℚ
  precision : Option ℚ
  velocity : Option ℚ
  clamp : Option Bool
deriving DecidableEq

/-- Resolved configuration, source `Required<SpringConfig>`. -/
structure RequiredSpringConfig where
  mass : ℚ
  tension : ℚ
  friction : ℚ
  precision : ℚ
  velocity : ℚ
  clamp : Bool
deriving DecidableEq

/-- Source `springDefaultConfig`. -/
def springDefaultConfig : RequiredSpringConfig :=
  { mass := 1, tension := 170, friction := 26, precision := 1/100,
    velocity := 0, clamp := false }

/-- Source `frameResolution = 1000 / 60 / 100`. -/
def frameResolution : ℚ := 1000 / 60 / 100

/-- JavaScript `Math.round`: round half toward positive infinity. -/
def jsRound (q : ℚ) : ℤ := ⌊q + 1/2⌋

/-- JavaScript object spread `{ ...base, ...c }` where `base` is fully
resolved and `c` is a partial config: a field present in `c` wins. -/
def mergeOver (base : RequiredSpringConfig) (c : SpringConfig) : RequiredSpringConfig :=
  { mass := c.mass.getD base.mass,
    tension := c.tension.getD base.tension,
    friction := c.friction.getD base.friction,
    precision := c.precision.getD base.precision,
    velocity := c.velocity.getD base.velocity,
    clamp := c.clamp.getD base.clamp }

/-- View a resolved configuration as a partial one with every field present
(the getter `config` returns such a full object). -/
def toPartial (c : RequiredSpringConfig) : SpringConfig :=
  { mass := some c.mass, tension := some c.tension, friction := some c.friction,
    precision := some c.precision, velocity := some c.velocity, clamp := some c.clamp }

/-- The absent per-call override (`start(value)` with no second argument). -/
def noOverride : SpringConfig :=
  { mass := none, tension := none, friction := none,
    precision := none, velocity := none, clamp := none }

/-- Source `SpringInfo.runtime`. -/
structure SpringRuntime where
  goal : ℚ
  current : ℚ
  v : ℚ
  running : Bool
  startConfig : Option RequiredSpringConfig
deriving DecidableEq

/-- Source `SpringInfo`: runtime plus resolved base config. -/
structure SpringInfo where
  runtime : SpringRuntime
  config : RequiredSpringConfig
deriving DecidableEq

/-- The whole mutable state of the `EasySpring` module.

`springs` is the heap of instances created so far (closure-captured
`info` objects; never shrinks).  `registered` is the key list of the
`Map` in insertion order; `remove` deletes only from it.  `raf` says
whether a platform frame request is pending; `lastT` is `info.lastT`
(`-1` meaning unset). -/
structure EasyState where
  springs : List (ℕ × SpringInfo)
  registered : List ℕ
  raf : Bool
  lastT : ℚ
deriving DecidableEq

/-- Which consumer callback slot was invoked. -/
inductive CbKind where
  | change
  | started
  | rest
deriving DecidableEq

/-- Observable trace events: a spring's callback invocation, or a call
of the scheduler's `checkIdle`. -/
inductive Ev where
  | cb (id : ℕ) (k : CbKind)
  | idleCheck
deriving DecidableEq

/-- Association-list lookup (first match), mirroring `Map.get`. -/
def lookupList : List (ℕ × SpringInfo) → ℕ → Option SpringInfo
  | [], _ => none
  | e :: rest, id => if e.1 = id then some e.2 else lookupList rest id

/-- Look an instance up in the heap (closures keep instances alive, so
this also succeeds for removed-from-registry springs). -/
def lookupSpring (st : EasyState) (id : ℕ) : Option SpringInfo :=
  lookupList st.springs id

/-- Replace the runtime of the instance with the given key (in-place
mutation of `info.runtime` in the source). -/
def updateList (l : List (ℕ × SpringInfo)) (id : ℕ) (rt : SpringRuntime) :
    List (ℕ × SpringInfo) :=
  l.map (fun e => if e.1 = id then (e.1, { e.2 with runtime := rt }) else e)

/-- State-level runtime update. -/
def updateRuntime (st : EasyState) (id : ℕ) (rt : SpringRuntime) : EasyState :=
  { st with springs := updateList st.springs id rt }

/-- The `running` flag of a registered id (false when absent). -/
def runningOf (st : EasyState) (id : ℕ) : Bool :=
  match lookupSpring st id with
  | some info => info.runtime.running
  | none => false

/-- `checkIdle`'s scan: does any spring of the `Map` have `running`? -/
def hasRunningB (st : EasyState) : Bool :=
  st.registered.any (runningOf st)

/-- Source `stopAnimationFrame`: cancel a pending request if any, and
reset `lastT` to unset. -/
def stopAnimationFrame (st : EasyState) : EasyState :=
  { st with raf := false, lastT := -1 }

/-- Source `checkIdle`. -/
def checkIdle (st : EasyState) : EasyState :=
  if hasRunningB st then st else stopAnimationFrame st

/-- Source `startAnimationFrame`: no-op when a request is pending. -/
def startAnimationFrame (st : EasyState) : EasyState :=
  if st.raf then st else { st with raf := true }

/-- One explicit-Euler integration sub-step (source lines 126-133). -/
def eulerStep (cfg : RequiredSpringConfig) (dtH : ℚ) (rt : SpringRuntime) :
    SpringRuntime :=
  let offset := rt.goal - rt.current
  let f := cfg.tension * offset
  let a := (f - cfg.friction * rt.v) / cfg.mass
  let v2 := rt.v + (a * dtH) / 1000
  { rt with v := v2, current := rt.current + (v2 * dtH) / 1000, running := true }

/-- Outcome of one sub-step: stop processing this spring for the frame
(rest branches, `return`), or continue with the integrated runtime. -/
inductive SubStepOut where
  | stop (rt : SpringRuntime) (evs : List CbKind) (idle : Bool)
  | cont (rt : SpringRuntime)
deriving DecidableEq

/-- One iteration of the sub-step loop body (source lines 101-133):
rest checks first, else integrate. -/
def subStep (cfg : RequiredSpringConfig) (dtH : ℚ) (rt : SpringRuntime) :
    SubStepOut :=
  let offset := rt.goal - rt.current
  if offset = 0 ∧ rt.v = 0 then
    if rt.running then
      SubStepOut.stop { rt with running := false } [CbKind.rest] true
    else
      SubStepOut.stop rt [] false
  else if |offset| < cfg.precision ∧ |rt.v| < cfg.precision then
    SubStepOut.stop { rt with v := 0, current := rt.goal, running := false }
      [CbKind.change, CbKind.rest] true
  else
    SubStepOut.cont (eulerStep cfg dtH rt)

/-- The sub-step loop `for i = 1..n` for one spring.  Returns the final
runtime, the callback events fired inside the loop, whether a rest
branch stopped the loop, and whether that branch asked for an idle
check. -/
def stepsLoop (cfg : RequiredSpringConfig) (dtH : ℚ) :
    ℕ → SpringRuntime → SpringRuntime × List CbKind × Bool × Bool
  | 0, rt => (rt, [], false, false)
  | n + 1, rt =>
    match subStep cfg dtH rt with
    | SubStepOut.stop rt2 evs idle => (rt2, evs, true, idle)
    | SubStepOut.cont rt2 => stepsLoop cfg dtH n rt2

/-- Pure n-fold Euler iteration (the no-rest path of `stepsLoop`). -/
def eulerIter (cfg : RequiredSpringConfig) (dtH : ℚ) :
    ℕ → SpringRuntime → SpringRuntime
  | 0, rt => rt
  | n + 1, rt => eulerIter cfg dtH n (eulerStep cfg dtH rt)

/-- Frame processing of one spring whose info was found (the body of the
`forEach` in `onFrame`): run the sub-step loop with the active config
(`startConfig ?? config`); on a rest stop, possibly run `checkIdle`;
otherwise fire `onChange` once after the loop. -/
def processInfo (st : EasyState) (id : ℕ) (info : SpringInfo) (n : ℕ) (dtH : ℚ) :
    EasyState × List Ev :=
  let cfg := info.runtime.startConfig.getD info.config
  let r := stepsLoop cfg dtH n info.runtime
  let st2 := updateRuntime st id r.1
  let evs := r.2.1.map (Ev.cb id)
  if r.2.2.1 then
    if r.2.2.2 then (checkIdle st2, evs ++ [Ev.idleCheck]) else (st2, evs)
  else
    (st2, evs ++ [Ev.cb id CbKind.change])

/-- Frame processing of one registry key. -/
def processOne (st : EasyState) (n : ℕ) (dtH : ℚ) (id : ℕ) : EasyState × List Ev :=
  match lookupSpring st id with
  | none => (st, [])
  | some info => processInfo st id info n dtH

/-- `springs.forEach(...)` over the registry keys, threading the state
(mid-frame `checkIdle` calls see already-updated earlier springs). -/
def processAll (n : ℕ) (dtH : ℚ) : List ℕ → EasyState → EasyState × List Ev
  | [], st => (st, [])
  | id :: rest, st =>
    let r1 := processOne st n dtH id
    let r2 := processAll n dtH rest r1.1
    (r2.1, r1.2 ++ r2.2)

/-- One invocation of `onFrame` with timestamp `t` (source lines 77-138):
re-request the next frame, establish or advance the time baseline, apply
the lag guard, then sub-step every registered spring. -/
def doFrame (st : EasyState) (t : ℚ) : EasyState × List Ev :=
  let st1 : EasyState := { st with raf := true }
  let base := if st1.lastT < 0 then t else st1.lastT
  let deltaT := t - base
  let st2 : EasyState := { st1 with lastT := t }
  if 100 < deltaT then
    ({ st2 with lastT := -1 }, [])
  else
    let n := (jsRound (deltaT / frameResolution)).toNat
    let dtH := deltaT / (n : ℚ)
    processAll n dtH st2.registered st2

/-- A key not colliding with any existing instance (the contract of
`generateId`; the model picks max + 1). -/
def freshId (st : EasyState) : ℕ :=
  (st.springs.map Prod.fst).foldr max 0 + 1

/-- Source `controller(option)`: allocate an id, build the instance with
`current = option.value ?? 0`, config = defaults merged with
`option.config`, register it.  No callback fires. -/
def doCreate (st : EasyState) (value : Option ℚ) (cfg : SpringConfig) :
    EasyState × List Ev :=
  let id := freshId st
  let info : SpringInfo :=
    { runtime := { goal := 0, current := value.getD 0, v := 0,
                   running := false, startConfig := none },
      config := mergeOver springDefaultConfig cfg }
  ({ st with springs := st.springs ++ [(id, info)],
             registered := st.registered ++ [id] }, [])

/-- The transient start-time config: `{...defaults, ...this.config, ...config}`. -/
def startConfigOf (base : RequiredSpringConfig) (override : SpringConfig) :
    RequiredSpringConfig :=
  mergeOver (mergeOver springDefaultConfig (toPartial base)) override

/-- Source `controller.start(value, config?)`.  Acts through the closure:
works even if the id was removed from the registry. -/
def doStart (st : EasyState) (id : ℕ) (value : ℚ) (override : SpringConfig) :
    EasyState × List Ev :=
  match lookupSpring st id with
  | none => (st, [])
  | some info =>
    let sc := startConfigOf info.config override
    let rt : SpringRuntime :=
      { goal := value, current := info.runtime.current, v := sc.velocity,
        running := true, startConfig := some sc }
    (startAnimationFrame (updateRuntime st id rt), [Ev.cb id CbKind.started])

/-- Source `controller.set(value)`.  Acts through the closure. -/
def doSet (st : EasyState) (id : ℕ) (value : ℚ) : EasyState × List Ev :=
  match lookupSpring st id with
  | none => (st, [])
  | some info =>
    let rt : SpringRuntime :=
      { goal := value, current := value, v := 0, running := false,
        startConfig := info.runtime.startConfig }
    let st2 := updateRuntime st id rt
    (checkIdle st2,
     (if value = info.runtime.current then [] else [Ev.cb id CbKind.change])
       ++ [Ev.idleCheck])

/-- Source `controller.remove()`: delete the key from the `Map` only. -/
def doRemove (st : EasyState) (id : ℕ) : EasyState × List Ev :=
  ({ st with registered := st.registered.filter (fun k => k ≠ id) }, [])

/-- The operations the environment can perform on the system. -/
inductive Op where
  | create (value : Option ℚ) (cfg : SpringConfig)
  | springStart (id : ℕ) (value : ℚ) (override : SpringConfig)
  | springSet (id : ℕ) (value : ℚ)
  | springRemove (id : ℕ)
  | tick (t : ℚ)
deriving DecidableEq

/-- Apply one operation.  A frame tick can only fire while a frame
request is pending. -/
def applyOp (st : EasyState) : Op → EasyState × List Ev
  | Op.create v cfg => doCreate st v cfg
  | Op.springStart id v c => doStart st id v c
  | Op.springSet id v => doSet st id v
  | Op.springRemove id => doRemove st id
  | Op.tick t => if st.raf then doFrame st t else (st, [])

/-- Run a list of operations, concatenating the emitted traces. -/
def runOps (st : EasyState) : List Op → EasyState × List Ev
  | [] => (st, [])
  | op :: rest =>
    let r1 := applyOp st op
    let r2 := runOps r1.1 rest
    (r2.1, r1.2 ++ r2.2)

/-- The state at module load: empty registry, idle scheduler. -/
def initState : EasyState :=
  { springs := [], registered := [], raf := false, lastT := -1 }

/-- Does an operation call `remove`? -/
def isRemoveOp : Op → Bool
  | Op.springRemove _ => true
  | _ => false

/-- Does an operation invoke `set` or `start` on the given controller? -/
def opTargets (id : ℕ) : Op → Bool
  | Op.springSet j _ => j == id
  | Op.springStart j _ _ => j == id
  | _ => false

/-- The heap keys (ids of all instances ever created). -/
def keysOf (st : EasyState) : List ℕ := st.springs.map Prod.fst

/-- The idle-shutdown property of one state: if no registered spring is
running, no frame request is pending. -/
def idleInv (st : EasyState) : Prop := hasRunningB st = false → st.raf = false

/-- Invariants of states reachable without `remove`: every instance is
registered, ids are unique, and the idle-shutdown property holds. -/
def goodState (st : EasyState) : Prop :=
  st.registered = keysOf st ∧ (keysOf st).Nodup ∧ idleInv st

/-- A spring sitting just inside the rest threshold (for witnesses). -/
def wNearInfo : SpringInfo :=
  { runtime := { goal := 0, current := 1/200, v := 0, running := true, startConfig := none },
    config := springDefaultConfig }

/-- A one-spring state holding `wNearInfo` under key 7. -/
def wNearState : EasyState :=
  { springs := [(7, wNearInfo)], registered := [7], raf := true, lastT := 0 }

/-- A spring one unit away from its goal, not running (for witnesses). -/
def wMoveRt : SpringRuntime :=
  { goal := 0, current := 1, v := 0, running := false, startConfig := none }

/-- `wMoveRt` with the default configuration. -/
def wMoveInfo : SpringInfo := { runtime := wMoveRt, config := springDefaultConfig }

/-- A one-spring state holding `wMoveInfo` under key 1. -/
def wMoveState : EasyState :=
  { springs := [(1, wMoveInfo)], registered := [1], raf := true, lastT := 0 }

/-- A running spring two units away from its goal (for witnesses). -/
def wRunInfo : SpringInfo :=
  { runtime := { goal := 0, current := 2, v := 0, running := true, startConfig := none },
    config := springDefaultConfig }

/-- A one-spring state holding `wRunInfo` under key 1. -/
def wRunState : EasyState :=
  { springs := [(1, wRunInfo)], registered := [1], raf := true, lastT := 0 }

/-- Creation config of the never-started spring of the scenario below:
stiffness and damping tuned so the motion settles in two sub-steps. -/
def c10Cfg : SpringConfig :=
  { mass := some 1, tension := some 36000000, friction := some 6000,
    precision := none, velocity := none, clamp := none }

/-- Scenario: spring 1 is created with `value = 1` and never started or
set; spring 2 is started (to its own current value) purely to activate
the frame loop; four frames follow, 1/6 ms apart. -/
def c10Ops : List Op :=
  [Op.create (some 1) c10Cfg,
   Op.create none noOverride,
   Op.springStart 2 0 noOverride,
   Op.tick 0, Op.tick (1/6), Op.tick (2/6), Op.tick (1/2)]

/-- The resolved configuration of scenario spring 1. -/
def c10InfoA : SpringInfo :=
  { runtime := { goal := 0, current := 1, v := 0, running := false, startConfig := none },
    config := { mass := 1, tension := 36000000, friction := 6000,
                precision := 1/100, velocity := 0, clamp := false } }

/-- A two-spring state for the C10 witness: spring 1 idle and displaced,
spring 2 running. -/
def c10StateW : EasyState :=
  { springs := [(1, c10InfoA), (2, wRunInfo)], registered := [1, 2], raf := true, lastT := 0 }

theorem updateList_nil (id : ℕ) (rt : SpringRuntime) : updateList [] id rt = [] := rfl

theorem updateList_cons (e : ℕ × SpringInfo) (rest : List (ℕ × SpringInfo))
    (id : ℕ) (rt : SpringRuntime) :
    updateList (e :: rest) id rt
      = (if e.1 = id then (e.1, { e.2 with runtime := rt }) else e) :: updateList rest id rt := rfl

theorem lookupList_update_self (l : List (ℕ × SpringInfo)) (id : ℕ) (rt : SpringRuntime) :
    lookupList (updateList l id rt) id
      = (lookupList l id).map (fun i => { i with runtime := rt }) := by
  induction l with
  | nil => rfl
  | cons e rest ih =>
    rw [updateList_cons]
    by_cases he : e.1 = id
    · rw [if_pos he]
      simp only [lookupList, if_pos he]
      rfl
    · rw [if_neg he]
      simp only [lookupList, if_neg he]
      exact ih

theorem lookupList_update_ne (l : List (ℕ × SpringInfo)) (id j : ℕ) (rt : SpringRuntime)
    (h : j ≠ id) :
    lookupList (updateList l id rt) j = lookupList l j := by
  induction l with
  | nil => rfl
  | cons e rest ih =>
    rw [updateList_cons]
    by_cases he : e.1 = id
    · have hj : e.1 ≠ j := by rw [he]; exact fun hh => h hh.symm
      rw [if_pos he]
      simp only [lookupList, if_neg hj]
      exact ih
    · rw [if_neg he]
      by_cases hj : e.1 = j
      · simp only [lookupList, if_pos hj]
      · simp only [lookupList, if_neg hj]
        exact ih

theorem updateList_keys (l : List (ℕ × SpringInfo)) (id : ℕ) (rt : SpringRuntime) :
    (updateList l id rt).map Prod.fst = l.map Prod.fst := by
  induction l with
  | nil => rfl
  | cons e rest ih =>
    rw [updateList_cons]
    by_cases he : e.1 = id
    · rw [if_pos he]
      simp only [List.map_cons]
      rw [ih]
    · rw [if_neg he]
      simp only [List.map_cons]
      rw [ih]

theorem updateList_not_mem (l : List (ℕ × SpringInfo)) (id : ℕ) (rt : SpringRuntime)
    (h : id ∉ l.map Prod.fst) : updateList l id rt = l := by
  induction l with
  | nil => rfl
  | cons e rest ih =>
    simp only [List.map_cons, List.mem_cons, not_or] at h
    have he : e.1 ≠ id := fun hh => h.1 hh.symm
    rw [updateList_cons, if_neg he, ih h.2]

theorem updateList_lookup_same (l : List (ℕ × SpringInfo)) (id : ℕ) (info : SpringInfo)
    (hnd : (l.map Prod.fst).Nodup) (h : lookupList l id = some info) :
    updateList l id info.runtime = l := by
  induction l with
  | nil => rfl
  | cons e rest ih =>
    simp only [List.map_cons, List.nodup_cons] at hnd
    by_cases he : e.1 = id
    · simp only [lookupList, if_pos he] at h
      obtain rfl : e.2 = info := by injection h
      have hrest : id ∉ rest.map Prod.fst := he ▸ hnd.1
      have hhead : ((e.1, { e.2 with runtime := e.2.runtime }) : ℕ × SpringInfo) = e := rfl
      rw [updateList_cons, if_pos he, hhead, updateList_not_mem rest id _ hrest]
    · simp only [lookupList, if_neg he] at h
      rw [updateList_cons, if_neg he, ih hnd.2 h]

theorem lookupSpring_update_self (st : EasyState) (id : ℕ) (rt : SpringRuntime) :
    lookupSpring (updateRuntime st id rt) id
      = (lookupSpring st id).map (fun i => { i with runtime := rt }) :=
  lookupList_update_self st.springs id rt

theorem lookupSpring_update_ne (st : EasyState) (id j : ℕ) (rt : SpringRuntime) (h : j ≠ id) :
    lookupSpring (updateRuntime st id rt) j = lookupSpring st j :=
  lookupList_update_ne st.springs id j rt h

theorem updateRuntime_same (st : EasyState) (id : ℕ) (info : SpringInfo)
    (hnd : (keysOf st).Nodup) (h : lookupSpring st id = some info) :
    updateRuntime st id info.runtime = st := by
  unfold updateRuntime
  rw [updateList_lookup_same st.springs id info hnd h]

theorem updateRuntime_registered (st : EasyState) (id : ℕ) (rt : SpringRuntime) :
    (updateRuntime st id rt).registered = st.registered := rfl

theorem updateRuntime_raf (st : EasyState) (id : ℕ) (rt : SpringRuntime) :
    (updateRuntime st id rt).raf = st.raf := rfl

theorem updateRuntime_keys (st : EasyState) (id : ℕ) (rt : SpringRuntime) :
    keysOf (updateRuntime st id rt) = keysOf st :=
  updateList_keys st.springs id rt

theorem checkIdle_springs (st : EasyState) : (checkIdle st).springs = st.springs := by
  unfold checkIdle stopAnimationFrame
  split <;> rfl

theorem checkIdle_registered (st : EasyState) : (checkIdle st).registered = st.registered := by
  unfold checkIdle stopAnimationFrame
  split <;> rfl

theorem checkIdle_keys (st : EasyState) : keysOf (checkIdle st) = keysOf st := by
  unfold keysOf
  rw [checkIdle_springs]

theorem lookupSpring_checkIdle (st : EasyState) (id : ℕ) :
    lookupSpring (checkIdle st) id = lookupSpring st id := by
  unfold lookupSpring
  rw [checkIdle_springs]

theorem hasRunningB_congr (st1 st2 : EasyState) (h1 : st1.springs = st2.springs)
    (h2 : st1.registered = st2.registered) : hasRunningB st1 = hasRunningB st2 := by
  unfold hasRunningB runningOf lookupSpring
  rw [h1, h2]

theorem hasRunningB_checkIdle (st : EasyState) : hasRunningB (checkIdle st) = hasRunningB st :=
  hasRunningB_congr _ _ (checkIdle_springs st) (checkIdle_registered st)

theorem idleInv_checkIdle (st : EasyState) : idleInv (checkIdle st) := by
  intro h
  rw [hasRunningB_checkIdle] at h
  unfold checkIdle
  rw [h]
  simp [stopAnimationFrame]

theorem hasRunningB_true_of (st : EasyState) (id : ℕ) (info : SpringInfo)
    (hmem : id ∈ st.registered) (hlook : lookupSpring st id = some info)
    (hrun : info.runtime.running = true) : hasRunningB st = true := by
  unfold hasRunningB
  rw [List.any_eq_true]
  refine ⟨id, hmem, ?_⟩
  unfold runningOf
  rw [hlook]
  exact hrun

theorem startAnimationFrame_raf (st : EasyState) : (startAnimationFrame st).raf = true := by
  unfold startAnimationFrame
  split
  · next h => exact h
  · rfl

theorem startAnimationFrame_springs (st : EasyState) :
    (startAnimationFrame st).springs = st.springs := by
  unfold startAnimationFrame
  split <;> rfl

theorem startAnimationFrame_registered (st : EasyState) :
    (startAnimationFrame st).registered = st.registered := by
  unfold startAnimationFrame
  split <;> rfl

theorem subStep_exact_running (cfg : RequiredSpringConfig) (dtH : ℚ) (rt : SpringRuntime)
    (h1 : rt.goal - rt.current = 0) (h2 : rt.v = 0) (h3 : rt.running = true) :
    subStep cfg dtH rt = SubStepOut.stop { rt with running := false } [CbKind.rest] true := by
  unfold subStep
  rw [if_pos ⟨h1, h2⟩, if_pos h3]

theorem subStep_exact_notrunning (cfg : RequiredSpringConfig) (dtH : ℚ) (rt : SpringRuntime)
    (h1 : rt.goal - rt.current = 0) (h2 : rt.v = 0) (h3 : rt.running = false) :
    subStep cfg dtH rt = SubStepOut.stop rt [] false := by
  unfold subStep
  rw [if_pos ⟨h1, h2⟩, if_neg (by rw [h3]; exact Bool.false_ne_true)]

theorem subStep_near (cfg : RequiredSpringConfig) (dtH : ℚ) (rt : SpringRuntime)
    (hne : ¬(rt.goal - rt.current = 0 ∧ rt.v = 0))
    (h1 : |rt.goal - rt.current| < cfg.precision) (h2 : |rt.v| < cfg.precision) :
    subStep cfg dtH rt
      = SubStepOut.stop { rt with v := 0, current := rt.goal, running := false }
          [CbKind.change, CbKind.rest] true := by
  unfold subStep
  rw [if_neg hne, if_pos ⟨h1, h2⟩]

theorem subStep_integrate (cfg : RequiredSpringConfig) (dtH : ℚ) (rt : SpringRuntime)
    (hne : ¬(rt.goal - rt.current = 0 ∧ rt.v = 0))
    (hfar : ¬(|rt.goal - rt.current| < cfg.precision ∧ |rt.v| < cfg.precision)) :
    subStep cfg dtH rt = SubStepOut.cont (eulerStep cfg dtH rt) := by
  unfold subStep
  rw [if_neg hne, if_neg hfar]

theorem subStep_cont_eq (cfg : RequiredSpringConfig) (dtH : ℚ) (rt rt2 : SpringRuntime)
    (h : subStep cfg dtH rt = SubStepOut.cont rt2) : rt2 = eulerStep cfg dtH rt := by
  by_cases h1 : rt.goal - rt.current = 0 ∧ rt.v = 0
  · cases h3 : rt.running
    · rw [subStep_exact_notrunning cfg dtH rt h1.1 h1.2 h3] at h
      exact absurd h (by simp)
    · rw [subStep_exact_running cfg dtH rt h1.1 h1.2 h3] at h
      exact absurd h (by simp)
  · by_cases h2 : |rt.goal - rt.current| < cfg.precision ∧ |rt.v| < cfg.precision
    · rw [subStep_near cfg dtH rt h1 h2.1 h2.2] at h
      exact absurd h (by simp)
    · rw [subStep_integrate cfg dtH rt h1 h2] at h
      injection h with hh
      exact hh.symm

theorem subStep_stop_notidle (cfg : RequiredSpringConfig) (dtH : ℚ)
    (rt rt2 : SpringRuntime) (evs : List CbKind)
    (h : subStep cfg dtH rt = SubStepOut.stop rt2 evs false) :
    rt2 = rt ∧ evs = [] ∧ rt.running = false := by
  by_cases h1 : rt.goal - rt.current = 0 ∧ rt.v = 0
  · cases h3 : rt.running
    · rw [subStep_exact_notrunning cfg dtH rt h1.1 h1.2 h3] at h
      injection h with ha hb hc
      exact ⟨ha.symm, hb.symm, rfl⟩
    · rw [subStep_exact_running cfg dtH rt h1.1 h1.2 h3] at h
      injection h with ha hb hc
      exact absurd hc (by simp)
  · by_cases h2 : |rt.goal - rt.current| < cfg.precision ∧ |rt.v| < cfg.precision
    · rw [subStep_near cfg dtH rt h1 h2.1 h2.2] at h
      injection h with ha hb hc
      exact absurd hc (by simp)
    · rw [subStep_integrate cfg dtH rt h1 h2] at h
      exact absurd h (by simp)

theorem subStep_running_idle (cfg : RequiredSpringConfig) (dtH : ℚ)
    (rt rt2 : SpringRuntime) (evs : List CbKind) (idle : Bool)
    (hrun : rt.running = true)
    (h : subStep cfg dtH rt = SubStepOut.stop rt2 evs idle) : idle = true := by
  by_cases h1 : rt.goal - rt.current = 0 ∧ rt.v = 0
  · rw [subStep_exact_running cfg dtH rt h1.1 h1.2 hrun] at h
    injection h with ha hb hc
    exact hc.symm
  · by_cases h2 : |rt.goal - rt.current| < cfg.precision ∧ |rt.v| < cfg.precision
    · rw [subStep_near cfg dtH rt h1 h2.1 h2.2] at h
      injection h with ha hb hc
      exact hc.symm
    · rw [subStep_integrate cfg dtH rt h1 h2] at h
      exact absurd h (by simp)

theorem eulerStep_running (cfg : RequiredSpringConfig) (dtH : ℚ) (rt : SpringRuntime) :
    (eulerStep cfg dtH rt).running = true := rfl

theorem stepsLoop_zero (cfg : RequiredSpringConfig) (dtH : ℚ) (rt : SpringRuntime) :
    stepsLoop cfg dtH 0 rt = (rt, [], false, false) := rfl

theorem stepsLoop_succ_stop (cfg : RequiredSpringConfig) (dtH : ℚ) (n : ℕ)
    (rt rt2 : SpringRuntime) (evs : List CbKind) (idle : Bool)
    (h : subStep cfg dtH rt = SubStepOut.stop rt2 evs idle) :
    stepsLoop cfg dtH (n + 1) rt = (rt2, evs, true, idle) := by
  conv_lhs => rw [stepsLoop]
  rw [h]

theorem stepsLoop_succ_cont (cfg : RequiredSpringConfig) (dtH : ℚ) (n : ℕ)
    (rt rt2 : SpringRuntime) (h : subStep cfg dtH rt = SubStepOut.cont rt2) :
    stepsLoop cfg dtH (n + 1) rt = stepsLoop cfg dtH n rt2 := by
  conv_lhs => rw [stepsLoop]
  rw [h]

theorem stepsLoop_norest (cfg : RequiredSpringConfig) (dtH : ℚ) :
    ∀ (n : ℕ) (rt : SpringRuntime), (stepsLoop cfg dtH n rt).2.2.1 = false →
      stepsLoop cfg dtH n rt = (eulerIter cfg dtH n rt, [], false, false) := by
  intro n
  induction n with
  | zero => intro rt _; rfl
  | succ m ih =>
    intro rt h
    cases hsub : subStep cfg dtH rt with
    | stop rt2 evs idle =>
      rw [stepsLoop_succ_stop cfg dtH m rt rt2 evs idle hsub] at h
      exact absurd h (by simp)
    | cont rt2 =>
      obtain rfl : rt2 = eulerStep cfg dtH rt := subStep_cont_eq cfg dtH rt rt2 hsub
      rw [stepsLoop_succ_cont cfg dtH m rt _ hsub] at h ⊢
      rw [ih _ h]
      rfl

theorem eulerIter_running (cfg : RequiredSpringConfig) (dtH : ℚ) :
    ∀ (n : ℕ) (rt : SpringRuntime), 1 ≤ n → (eulerIter cfg dtH n rt).running = true := by
  intro n
  induction n with
  | zero => intro rt h; omega
  | succ m ih =>
    intro rt _
    show (eulerIter cfg dtH m (eulerStep cfg dtH rt)).running = true
    cases m with
    | zero => rfl
    | succ k => exact ih _ (by omega)

theorem stepsLoop_running_idle (cfg : RequiredSpringConfig) (dtH : ℚ) :
    ∀ (n : ℕ) (rt : SpringRuntime) (rt2 : SpringRuntime) (evs : List CbKind) (idle : Bool),
      rt.running = true → stepsLoop cfg dtH n rt = (rt2, evs, true, idle) → idle = true := by
  intro n
  induction n with
  | zero =>
    intro rt rt2 evs idle _ h
    rw [stepsLoop_zero] at h
    injection h with h1 h2
    injection h2 with h3 h4
    injection h4 with h5 h6
    exact absurd h5.symm (by simp)
  | succ m ih =>
    intro rt rt2 evs idle hrun h
    cases hsub : subStep cfg dtH rt with
    | stop rt3 evs3 idle3 =>
      rw [stepsLoop_succ_stop cfg dtH m rt rt3 evs3 idle3 hsub] at h
      injection h with h1 h2
      injection h2 with h3 h4
      injection h4 with h5 h6
      rw [← h6]
      exact subStep_running_idle cfg dtH rt rt3 evs3 idle3 hrun hsub
    | cont rt3 =>
      obtain rfl : rt3 = eulerStep cfg dtH rt := subStep_cont_eq cfg dtH rt rt3 hsub
      rw [stepsLoop_succ_cont cfg dtH m rt _ hsub] at h
      exact ih _ rt2 evs idle (eulerStep_running cfg dtH rt) h

theorem stepsLoop_rest_notidle (cfg : RequiredSpringConfig) (dtH : ℚ) :
    ∀ (n : ℕ) (rt : SpringRuntime) (rt2 : SpringRuntime) (evs : List CbKind),
      stepsLoop cfg dtH n rt = (rt2, evs, true, false) →
      rt2 = rt ∧ evs = [] ∧ rt.running = false := by
  intro n
  induction n with
  | zero =>
    intro rt rt2 evs h
    rw [stepsLoop_zero] at h
    injection h with h1 h2
    injection h2 with h3 h4
    injection h4 with h5 h6
    exact absurd h5.symm (by simp)
  | succ m ih =>
    intro rt rt2 evs h
    cases hsub : subStep cfg dtH rt with
    | stop rt3 evs3 idle3 =>
      rw [stepsLoop_succ_stop cfg dtH m rt rt3 evs3 idle3 hsub] at h
      injection h with h1 h2
      injection h2 with h3 h4
      injection h4 with h5 h6
      subst h1 h3 h6
      exact subStep_stop_notidle cfg dtH rt rt3 evs3 hsub
    | cont rt3 =>
      obtain rfl : rt3 = eulerStep cfg dtH rt := subStep_cont_eq cfg dtH rt rt3 hsub
      rw [stepsLoop_succ_cont cfg dtH m rt _ hsub] at h
      obtain ⟨_, _, hfalse⟩ := ih _ rt2 evs h
      exact absurd hfalse (by rw [eulerStep_running]; simp)

theorem processOne_some (st : EasyState) (n : ℕ) (dtH : ℚ) (id : ℕ) (info : SpringInfo)
    (h : lookupSpring st id = some info) :
    processOne st n dtH id = processInfo st id info n dtH := by
  unfold processOne
  rw [h]

theorem processOne_none (st : EasyState) (n : ℕ) (dtH : ℚ) (id : ℕ)
    (h : lookupSpring st id = none) :
    processOne st n dtH id = (st, []) := by
  unfold processOne
  rw [h]

theorem processInfo_eq (st : EasyState) (id : ℕ) (info : SpringInfo) (n : ℕ) (dtH : ℚ)
    (rt2 : SpringRuntime) (evs : List CbKind) (restHit idle : Bool)
    (hsl : stepsLoop (info.runtime.startConfig.getD info.config) dtH n info.runtime
            = (rt2, evs, restHit, idle)) :
    processInfo st id info n dtH =
      if restHit then
        if idle then
          (checkIdle (updateRuntime st id rt2), evs.map (Ev.cb id) ++ [Ev.idleCheck])
        else
          (updateRuntime st id rt2, evs.map (Ev.cb id))
      else
        (updateRuntime st id rt2, evs.map (Ev.cb id) ++ [Ev.cb id CbKind.change]) := by
  simp only [processInfo]
  rw [hsl]

/-- C1: on each sub-step the rest checks run before integrating, with
precision drawn from the active config.  Near rest (and not exactly at
rest): `current` snaps to `goal`, `v` becomes 0, `onChange` fires then
`onRest`, `running` becomes false, an idle check runs, and the result no
longer depends on the remaining sub-step count.  Exactly at rest while
running: only `onRest` fires, `running` becomes false, an idle check
runs, no `onChange`.  Exactly at rest while not running: nothing fires
and the spring is skipped for the frame. -/
theorem c1_rest_checks (st : EasyState) (id : ℕ) (info : SpringInfo) (n : ℕ) (dtH : ℚ)
    (hlook : lookupSpring st id = some info) (hn : 1 ≤ n) :
    (¬(info.runtime.goal - info.runtime.current = 0 ∧ info.runtime.v = 0) →
      |info.runtime.goal - info.runtime.current|
          < (info.runtime.startConfig.getD info.config).precision →
      |info.runtime.v| < (info.runtime.startConfig.getD info.config).precision →
      processOne st n dtH id =
        (checkIdle (updateRuntime st id
          { goal := info.runtime.goal, current := info.runtime.goal, v := 0,
            running := false, startConfig := info.runtime.startConfig }),
         [Ev.cb id CbKind.change, Ev.cb id CbKind.rest, Ev.idleCheck]))
    ∧ (info.runtime.goal - info.runtime.current = 0 → info.runtime.v = 0 →
        info.runtime.running = true →
        processOne st n dtH id =
          (checkIdle (updateRuntime st id { info.runtime with running := false }),
           [Ev.cb id CbKind.rest, Ev.idleCheck]))
    ∧ (info.runtime.goal - info.runtime.current = 0 → info.runtime.v = 0 →
        info.runtime.running = false →
        processOne st n dtH id = (updateRuntime st id info.runtime, [])) := by
  obtain ⟨m, rfl⟩ : ∃ m, n = m + 1 := ⟨n - 1, by omega⟩
  rw [processOne_some st _ dtH id info hlook]
  refine ⟨?_, ?_, ?_⟩
  · intro hne hp1 hp2
    rw [processInfo_eq st id info _ dtH _ _ _ _
      (stepsLoop_succ_stop _ dtH m _ _ _ _ (subStep_near _ dtH info.runtime hne hp1 hp2))]
    rfl
  · intro h1 h2 h3
    rw [processInfo_eq st id info _ dtH _ _ _ _
      (stepsLoop_succ_stop _ dtH m _ _ _ _
        (subStep_exact_running _ dtH info.runtime h1 h2 h3))]
    rfl
  · intro h1 h2 h3
    rw [processInfo_eq st id info _ dtH _ _ _ _
      (stepsLoop_succ_stop _ dtH m _ _ _ _
        (subStep_exact_notrunning _ dtH info.runtime h1 h2 h3))]
    rfl

/-- Witness for C1: a concrete spring 1/200 away from its goal with zero
velocity takes the near-rest branch. -/
theorem c1_rest_checks_witness :
    processOne wNearState 1 (1/6) 7 =
      (checkIdle (updateRuntime wNearState 7
        { goal := 0, current := 0, v := 0, running := false, startConfig := none }),
       [Ev.cb 7 CbKind.change, Ev.cb 7 CbKind.rest, Ev.idleCheck]) :=
  (c1_rest_checks wNearState 7 wNearInfo 1 (1/6) rfl (by norm_num)).1
    (by norm_num [wNearInfo]) (by norm_num [wNearInfo, springDefaultConfig, abs_lt])
    (by norm_num [wNearInfo, springDefaultConfig, abs_lt])

/-- C2: when neither rest condition holds, the sub-step is one explicit
Euler step: `v += ((tension * (goal - current) - friction * v) / mass * dtH) / 1000`,
`current += (v_new * dtH) / 1000`, and the spring is marked running. -/
theorem c2_euler_substep (cfg : RequiredSpringConfig) (dtH : ℚ) (rt : SpringRuntime)
    (hne : ¬(rt.goal - rt.current = 0 ∧ rt.v = 0))
    (hfar : ¬(|rt.goal - rt.current| < cfg.precision ∧ |rt.v| < cfg.precision)) :
    subStep cfg dtH rt = SubStepOut.cont (eulerStep cfg dtH rt)
    ∧ (eulerStep cfg dtH rt).v
        = rt.v + ((cfg.tension * (rt.goal - rt.current) - cfg.friction * rt.v)
            / cfg.mass * dtH) / 1000
    ∧ (eulerStep cfg dtH rt).current
        = rt.current + ((eulerStep cfg dtH rt).v * dtH) / 1000
    ∧ (eulerStep cfg dtH rt).running = true
    ∧ (eulerStep cfg dtH rt).goal = rt.goal :=
  ⟨subStep_integrate cfg dtH rt hne hfar, rfl, rfl, rfl, rfl⟩

/-- Witness for C2: a concrete spring one unit from its goal integrates. -/
theorem c2_euler_substep_witness :
    subStep springDefaultConfig (1/6) wMoveRt
        = SubStepOut.cont (eulerStep springDefaultConfig (1/6) wMoveRt)
    ∧ (eulerStep springDefaultConfig (1/6) wMoveRt).v
        = wMoveRt.v + ((springDefaultConfig.tension * (wMoveRt.goal - wMoveRt.current)
            - springDefaultConfig.friction * wMoveRt.v)
            / springDefaultConfig.mass * (1/6)) / 1000
    ∧ (eulerStep springDefaultConfig (1/6) wMoveRt).current
        = wMoveRt.current + ((eulerStep springDefaultConfig (1/6) wMoveRt).v * (1/6)) / 1000
    ∧ (eulerStep springDefaultConfig (1/6) wMoveRt).running = true
    ∧ (eulerStep springDefaultConfig (1/6) wMoveRt).goal = wMoveRt.goal :=
  c2_euler_substep springDefaultConfig (1/6) wMoveRt
    (by norm_num [wMoveRt]) (by norm_num [wMoveRt, springDefaultConfig, abs_lt])

/-- C7: when no rest branch fires during a frame, the spring's events for
that frame are exactly one `onChange`, emitted after the whole sub-step
loop, whose result is the n-fold Euler iteration — regardless of the
sub-step count `n`. -/
theorem c7_single_change (st : EasyState) (id : ℕ) (info : SpringInfo) (n : ℕ) (dtH : ℚ)
    (hlook : lookupSpring st id = some info)
    (hnorest : (stepsLoop (info.runtime.startConfig.getD info.config) dtH n
        info.runtime).2.2.1 = false) :
    processOne st n dtH id =
      (updateRuntime st id
        (eulerIter (info.runtime.startConfig.getD info.config) dtH n info.runtime),
       [Ev.cb id CbKind.change]) := by
  rw [processOne_some st n dtH id info hlook]
  rw [processInfo_eq st id info n dtH _ _ _ _
    (stepsLoop_norest _ dtH n info.runtime hnorest)]
  rfl

/-- Witness for C7: one sub-step of the concrete moving spring emits a
single `onChange`. -/
theorem c7_single_change_witness :
    processOne wMoveState 1 (1/6) 1 =
      (updateRuntime wMoveState 1
        (eulerIter (wMoveInfo.runtime.startConfig.getD wMoveInfo.config) (1/6) 1
          wMoveInfo.runtime),
       [Ev.cb 1 CbKind.change]) :=
  c7_single_change wMoveState 1 wMoveInfo 1 (1/6) rfl
    (by norm_num [stepsLoop, subStep, eulerStep, wMoveInfo, wMoveRt, springDefaultConfig])

theorem doSet_some (st : EasyState) (id : ℕ) (info : SpringInfo) (value : ℚ)
    (h : lookupSpring st id = some info) :
    doSet st id value =
      (checkIdle (updateRuntime st id
        { goal := value, current := value, v := 0, running := false,
          startConfig := info.runtime.startConfig }),
       (if value = info.runtime.current then [] else [Ev.cb id CbKind.change])
         ++ [Ev.idleCheck]) := by
  unfold doSet
  rw [h]

theorem doStart_some (st : EasyState) (id : ℕ) (info : SpringInfo) (value : ℚ)
    (override : SpringConfig) (h : lookupSpring st id = some info) :
    doStart st id value override =
      (startAnimationFrame (updateRuntime st id
        { goal := value, current := info.runtime.current,
          v := (startConfigOf info.config override).velocity,
          running := true, startConfig := some (startConfigOf info.config override) }),
       [Ev.cb id CbKind.started]) := by
  unfold doStart
  rw [h]

theorem lookupSpring_startAnim (st : EasyState) (j : ℕ) :
    lookupSpring (startAnimationFrame st) j = lookupSpring st j := by
  unfold lookupSpring
  rw [startAnimationFrame_springs]

theorem mergeOver_toPartial (b c : RequiredSpringConfig) :
    mergeOver b (toPartial c) = c := rfl

theorem startConfigOf_eq (base : RequiredSpringConfig) (override : SpringConfig) :
    startConfigOf base override = mergeOver base override := by
  unfold startConfigOf
  rw [mergeOver_toPartial]

/-- C3: `set(value)` teleports: `goal = current = value`, `v = 0`,
`running = false`, `startConfig` untouched; `onChange` fires exactly when
the value differs from the previous `current`, `onRest` never fires, and
an idle check always runs.  A second identical `set` emits no
`onChange`. -/
theorem c3_set (st : EasyState) (id : ℕ) (info : SpringInfo) (value : ℚ)
    (hlook : lookupSpring st id = some info) :
    doSet st id value =
      (checkIdle (updateRuntime st id
        { goal := value, current := value, v := 0, running := false,
          startConfig := info.runtime.startConfig }),
       if value = info.runtime.current then [Ev.idleCheck]
       else [Ev.cb id CbKind.change, Ev.idleCheck])
    ∧ (doSet (doSet st id value).1 id value).2 = [Ev.idleCheck] := by
  have hmain := doSet_some st id info value hlook
  constructor
  · rw [hmain]
    by_cases h : value = info.runtime.current
    · rw [if_pos h, if_pos h]
      rfl
    · rw [if_neg h, if_neg h]
      rfl
  · have hlook2 : lookupSpring (doSet st id value).1 id
        = some { info with runtime :=
            { goal := value, current := value, v := 0, running := false,
              startConfig := info.runtime.startConfig } } := by
      rw [hmain]
      show lookupSpring (checkIdle (updateRuntime st id _)) id = _
      rw [lookupSpring_checkIdle, lookupSpring_update_self, hlook]
      rfl
    rw [doSet_some (doSet st id value).1 id _ value hlook2]
    simp

/-- C4: `start(value, override)` sets `goal = value`, `running = true`,
stores the active config `{...defaults, ...base, ...override}` (equal to
the base overridden fieldwise), seeds `v` from the active config's
`velocity` (ignoring the in-flight velocity), fires `onStart`, and
leaves a frame request pending. -/
theorem c4_start (st : EasyState) (id : ℕ) (info : SpringInfo) (value : ℚ)
    (override : SpringConfig) (hlook : lookupSpring st id = some info) :
    doStart st id value override =
      (startAnimationFrame (updateRuntime st id
        { goal := value, current := info.runtime.current,
          v := (startConfigOf info.config override).velocity,
          running := true, startConfig := some (startConfigOf info.config override) }),
       [Ev.cb id CbKind.started])
    ∧ (doStart st id value override).1.raf = true
    ∧ startConfigOf info.config override = mergeOver info.config override := by
  have hmain := doStart_some st id info value override hlook
  refine ⟨hmain, ?_, startConfigOf_eq info.config override⟩
  rw [hmain]
  exact startAnimationFrame_raf _

/-- Witness for C3 at a concrete running spring set to a new value. -/
theorem c3_set_witness :
    doSet wRunState 1 5 =
      (checkIdle (updateRuntime wRunState 1
        { goal := 5, current := 5, v := 0, running := false, startConfig := none }),
       if (5 : ℚ) = wRunInfo.runtime.current then [Ev.idleCheck]
       else [Ev.cb 1 CbKind.change, Ev.idleCheck])
    ∧ (doSet (doSet wRunState 1 5).1 1 5).2 = [Ev.idleCheck] :=
  c3_set wRunState 1 wRunInfo 5 rfl

/-- Witness for C4 at a concrete spring started with a friction override. -/
theorem c4_start_witness :
    doStart wRunState 1 9 { noOverride with friction := some 30 } =
      (startAnimationFrame (updateRuntime wRunState 1
        { goal := 9, current := wRunInfo.runtime.current,
          v := (startConfigOf wRunInfo.config { noOverride with friction := some 30 }).velocity,
          running := true,
          startConfig := some (startConfigOf wRunInfo.config
            { noOverride with friction := some 30 }) }),
       [Ev.cb 1 CbKind.started])
    ∧ (doStart wRunState 1 9 { noOverride with friction := some 30 }).1.raf = true
    ∧ startConfigOf wRunInfo.config { noOverride with friction := some 30 }
        = mergeOver wRunInfo.config { noOverride with friction := some 30 } :=
  c4_start wRunState 1 wRunInfo 9 { noOverride with friction := some 30 } rfl

theorem processAll_zero_state (dtH : ℚ) :
    ∀ (l : List ℕ) (st : EasyState), (keysOf st).Nodup →
      (processAll 0 dtH l st).1 = st := by
  intro l
  induction l with
  | nil => intro st _; rfl
  | cons id rest ih =>
    intro st hnd
    have h1 : (processOne st 0 dtH id).1 = st := by
      cases hlook : lookupSpring st id with
      | none => rw [processOne_none st 0 dtH id hlook]
      | some info =>
        rw [processOne_some st 0 dtH id info hlook,
            processInfo_eq st id info 0 dtH _ _ _ _ (stepsLoop_zero _ dtH info.runtime)]
        show updateRuntime st id info.runtime = st
        exact updateRuntime_same st id info hnd hlook
    show (processAll 0 dtH rest (processOne st 0 dtH id).1).1 = st
    rw [h1]
    exact ih st hnd

/-- C8: a frame whose elapsed time exceeds 100 ms performs no physics
work — no spring changes, no event fires — and resets the baseline to
unset, so the next frame measures zero elapsed time and leaves every
spring unchanged as well. -/
theorem c8_lag_guard (st : EasyState) (t t2 : ℚ)
    (hbase : ¬ st.lastT < 0) (hlag : 100 < t - st.lastT)
    (hkeys : (keysOf st).Nodup) :
    doFrame st t = ({ st with raf := true, lastT := -1 }, [])
    ∧ (doFrame { st with raf := true, lastT := -1 } t2).1.springs = st.springs
    ∧ (doFrame { st with raf := true, lastT := -1 } t2).1.lastT = t2 := by
  have hfirst : doFrame st t = ({ st with raf := true, lastT := -1 }, []) := by
    simp only [doFrame]
    rw [if_neg hbase, if_pos hlag]
  have hsecond : (doFrame { st with raf := true, lastT := -1 } t2).1
      = { st with raf := true, lastT := t2 } := by
    simp only [doFrame]
    rw [if_pos (by norm_num : (-1 : ℚ) < 0), sub_self,
        if_neg (by norm_num : ¬ (100 : ℚ) < 0)]
    have hn : (jsRound (0 / frameResolution)).toNat = 0 := by
      norm_num [jsRound, frameResolution]
    rw [hn]
    exact processAll_zero_state _ _ _ hkeys
  exact ⟨hfirst, by rw [hsecond], by rw [hsecond]⟩

/-- Witness for C8: a 200 ms frame gap on a concrete state. -/
theorem c8_lag_guard_witness :
    doFrame wMoveState 200 = ({ wMoveState with raf := true, lastT := -1 }, [])
    ∧ (doFrame { wMoveState with raf := true, lastT := -1 } 7).1.springs = wMoveState.springs
    ∧ (doFrame { wMoveState with raf := true, lastT := -1 } 7).1.lastT = 7 :=
  c8_lag_guard wMoveState 200 7 (by norm_num [wMoveState])
    (by norm_num [wMoveState]) (by simp [keysOf, wMoveState])

/-- C9: a per-call friction override is visible only in the transient
start config: the stored base config of every spring (hence the `config`
accessor) is unchanged, while the active config carries the overridden
friction. -/
theorem c9_override_no_leak (st : EasyState) (id : ℕ) (info : SpringInfo) (v X : ℚ)
    (hlook : lookupSpring st id = some info) :
    (lookupSpring (doStart st id v { noOverride with friction := some X }).1 id).map
        SpringInfo.config = some info.config
    ∧ (∀ j : ℕ,
        (lookupSpring (doStart st id v { noOverride with friction := some X }).1 j).map
          SpringInfo.config = (lookupSpring st j).map SpringInfo.config)
    ∧ (lookupSpring (doStart st id v { noOverride with friction := some X }).1 id).map
        (fun i => i.runtime.startConfig)
        = some (some (startConfigOf info.config { noOverride with friction := some X }))
    ∧ (startConfigOf info.config { noOverride with friction := some X }).friction = X := by
  have hmain := doStart_some st id info v { noOverride with friction := some X } hlook
  have hlookAfter : lookupSpring (doStart st id v { noOverride with friction := some X }).1 id
      = some { info with runtime :=
          { goal := v, current := info.runtime.current,
            v := (startConfigOf info.config { noOverride with friction := some X }).velocity,
            running := true,
            startConfig := some (startConfigOf info.config
              { noOverride with friction := some X }) } } := by
    rw [hmain]
    show lookupSpring (startAnimationFrame (updateRuntime st id _)) id = _
    rw [lookupSpring_startAnim, lookupSpring_update_self, hlook]
    rfl
  refine ⟨?_, ?_, ?_, rfl⟩
  · rw [hlookAfter]
    rfl
  · intro j
    by_cases hj : j = id
    · subst hj
      rw [hlookAfter, hlook]
      rfl
    · rw [hmain]
      show (lookupSpring (startAnimationFrame (updateRuntime st id _)) j).map _ = _
      rw [lookupSpring_startAnim, lookupSpring_update_ne st id j _ hj]
  · rw [hlookAfter]
    rfl

/-- Witness for C9 at a concrete spring with friction overridden to 42. -/
theorem c9_override_no_leak_witness :
    (lookupSpring (doStart wRunState 1 5 { noOverride with friction := some 42 }).1 1).map
        SpringInfo.config = some wRunInfo.config
    ∧ (∀ j : ℕ,
        (lookupSpring (doStart wRunState 1 5 { noOverride with friction := some 42 }).1 j).map
          SpringInfo.config = (lookupSpring wRunState j).map SpringInfo.config)
    ∧ (lookupSpring (doStart wRunState 1 5 { noOverride with friction := some 42 }).1 1).map
        (fun i => i.runtime.startConfig)
        = some (some (startConfigOf wRunInfo.config { noOverride with friction := some 42 }))
    ∧ (startConfigOf wRunInfo.config { noOverride with friction := some 42 }).friction = 42 :=
  c9_override_no_leak wRunState 1 wRunInfo 5 42 rfl

theorem doStart_none (st : EasyState) (id : ℕ) (value : ℚ) (override : SpringConfig)
    (h : lookupSpring st id = none) : doStart st id value override = (st, []) := by
  unfold doStart
  rw [h]

theorem doSet_none (st : EasyState) (id : ℕ) (value : ℚ)
    (h : lookupSpring st id = none) : doSet st id value = (st, []) := by
  unfold doSet
  rw [h]

theorem keysOf_startAnim (st : EasyState) :
    keysOf (startAnimationFrame st) = keysOf st := by
  unfold keysOf
  rw [startAnimationFrame_springs]

theorem lookupList_some_mem (l : List (ℕ × SpringInfo)) (k : ℕ) (i : SpringInfo)
    (h : lookupList l k = some i) : k ∈ l.map Prod.fst := by
  induction l with
  | nil => exact absurd h (by simp [lookupList])
  | cons e rest ih =>
    by_cases he : e.1 = k
    · exact List.mem_cons.mpr (Or.inl he.symm)
    · simp only [lookupList, if_neg he] at h
      exact List.mem_cons.mpr (Or.inr (ih h))

theorem lookupList_append_of_mem (l m : List (ℕ × SpringInfo)) (k : ℕ)
    (hk : k ∈ l.map Prod.fst) : lookupList (l ++ m) k = lookupList l k := by
  induction l with
  | nil => exact absurd hk (by simp)
  | cons e rest ih =>
    by_cases he : e.1 = k
    · simp only [List.cons_append, lookupList, if_pos he]
    · simp only [List.cons_append, lookupList, if_neg he]
      rw [List.map_cons] at hk
      rcases List.mem_cons.mp hk with h1 | h2
      · exact absurd h1.symm he
      · exact ih h2

theorem any_congr_mem (l : List ℕ) (p q : ℕ → Bool) (h : ∀ a ∈ l, p a = q a) :
    l.any p = l.any q := by
  induction l with
  | nil => rfl
  | cons a rest ih =>
    simp only [List.any_cons]
    rw [h a (List.mem_cons_self a rest),
        ih (fun b hb => h b (List.mem_cons_of_mem a hb))]

theorem mem_le_foldr_max (l : List ℕ) : ∀ k ∈ l, k ≤ l.foldr max 0 := by
  induction l with
  | nil => intro k hk; exact absurd hk (by simp)
  | cons a rest ih =>
    intro k hk
    rcases List.mem_cons.mp hk with rfl | hk2
    · exact le_max_left _ _
    · exact le_trans (ih k hk2) (le_max_right _ _)

theorem mem_lt_freshId (st : EasyState) (k : ℕ) (hk : k ∈ keysOf st) : k < freshId st := by
  unfold freshId
  have := mem_le_foldr_max (st.springs.map Prod.fst) k hk
  omega

theorem processOne_registered (st : EasyState) (n : ℕ) (dtH : ℚ) (id : ℕ) :
    (processOne st n dtH id).1.registered = st.registered := by
  cases hlook : lookupSpring st id with
  | none => rw [processOne_none st n dtH id hlook]
  | some info =>
    rcases hsl : stepsLoop (info.runtime.startConfig.getD info.config) dtH n info.runtime
      with ⟨rt2, evs, restHit, idle⟩
    rw [processOne_some st n dtH id info hlook, processInfo_eq st id info n dtH _ _ _ _ hsl]
    cases restHit <;> cases idle <;>
      simp [checkIdle_registered, updateRuntime_registered]

theorem processOne_keys (st : EasyState) (n : ℕ) (dtH : ℚ) (id : ℕ) :
    keysOf (processOne st n dtH id).1 = keysOf st := by
  cases hlook : lookupSpring st id with
  | none => rw [processOne_none st n dtH id hlook]
  | some info =>
    rcases hsl : stepsLoop (info.runtime.startConfig.getD info.config) dtH n info.runtime
      with ⟨rt2, evs, restHit, idle⟩
    rw [processOne_some st n dtH id info hlook, processInfo_eq st id info n dtH _ _ _ _ hsl]
    cases restHit <;> cases idle <;>
      simp [checkIdle_keys, updateRuntime_keys]

theorem processOne_idleInv (st : EasyState) (n : ℕ) (dtH : ℚ) (id : ℕ)
    (hnd : (keysOf st).Nodup) (hmem : id ∈ st.registered) (hinv : idleInv st) :
    idleInv (processOne st n dtH id).1 := by
  cases hlook : lookupSpring st id with
  | none => rw [processOne_none st n dtH id hlook]; exact hinv
  | some info =>
    rcases hsl : stepsLoop (info.runtime.startConfig.getD info.config) dtH n info.runtime
      with ⟨rt2, evs, restHit, idle⟩
    rw [processOne_some st n dtH id info hlook, processInfo_eq st id info n dtH _ _ _ _ hsl]
    cases restHit with
    | true =>
      cases idle with
      | true =>
        show idleInv (checkIdle (updateRuntime st id rt2))
        exact idleInv_checkIdle _
      | false =>
        obtain ⟨hrt, hevs, hrun⟩ :=
          stepsLoop_rest_notidle _ dtH n info.runtime rt2 evs hsl
        show idleInv (updateRuntime st id rt2)
        rw [hrt, updateRuntime_same st id info hnd hlook]
        exact hinv
    | false =>
      show idleInv (updateRuntime st id rt2)
      cases n with
      | zero =>
        rw [stepsLoop_zero] at hsl
        injection hsl with h1 h2
        rw [← h1, updateRuntime_same st id info hnd hlook]
        exact hinv
      | succ m =>
        have hrun : rt2.running = true := by
          have hns := stepsLoop_norest _ dtH (m + 1) info.runtime (by rw [hsl])
          rw [hsl] at hns
          injection hns with ha hb
          rw [ha]
          exact eulerIter_running _ dtH (m + 1) info.runtime (by omega)
        intro hfalse
        have htrue : hasRunningB (updateRuntime st id rt2) = true :=
          hasRunningB_true_of _ id { info with runtime := rt2 }
            (by rw [updateRuntime_registered]; exact hmem)
            (by rw [lookupSpring_update_self, hlook]; rfl)
            hrun
        rw [htrue] at hfalse
        exact absurd hfalse (by simp)

theorem processAll_registered (n : ℕ) (dtH : ℚ) :
    ∀ (l : List ℕ) (st : EasyState),
      (processAll n dtH l st).1.registered = st.registered := by
  intro l
  induction l with
  | nil => intro st; rfl
  | cons id rest ih =>
    intro st
    show (processAll n dtH rest (processOne st n dtH id).1).1.registered = st.registered
    rw [ih, processOne_registered]

theorem processAll_keys (n : ℕ) (dtH : ℚ) :
    ∀ (l : List ℕ) (st : EasyState),
      keysOf (processAll n dtH l st).1 = keysOf st := by
  intro l
  induction l with
  | nil => intro st; rfl
  | cons id rest ih =>
    intro st
    show keysOf (processAll n dtH rest (processOne st n dtH id).1).1 = keysOf st
    rw [ih, processOne_keys]

theorem processAll_idleInv (n : ℕ) (dtH : ℚ) :
    ∀ (l : List ℕ) (st : EasyState),
      (keysOf st).Nodup → l ⊆ st.registered → idleInv st →
      idleInv (processAll n dtH l st).1 := by
  intro l
  induction l with
  | nil => intro st _ _ h; exact h
  | cons id rest ih =>
    intro st hnd hsub hinv
    show idleInv (processAll n dtH rest (processOne st n dtH id).1).1
    apply ih
    · rw [processOne_keys]; exact hnd
    · rw [processOne_registered]
      exact fun x hx => hsub (List.mem_cons_of_mem _ hx)
    · exact processOne_idleInv st n dtH id hnd (hsub (List.mem_cons_self _ _)) hinv

theorem doFrame_registered (st : EasyState) (t : ℚ) :
    (doFrame st t).1.registered = st.registered := by
  simp only [doFrame]
  split <;> split <;> first | rfl | rw [processAll_registered]

theorem doFrame_keys (st : EasyState) (t : ℚ) :
    keysOf (doFrame st t).1 = keysOf st := by
  simp only [doFrame]
  split <;> split <;> first | rfl | (rw [processAll_keys]; rfl)

theorem doFrame_idleInv (st : EasyState) (t : ℚ)
    (hnd : (keysOf st).Nodup) (hinv : idleInv st) (hraf : st.raf = true) :
    idleInv (doFrame st t).1 := by
  have hrun : hasRunningB st = true := by
    cases hh : hasRunningB st
    · exact absurd (hinv hh) (by rw [hraf]; simp)
    · rfl
  simp only [doFrame]
  split <;> split
  · intro hfalse
    have h2 : hasRunningB st = false := hfalse
    rw [hrun] at h2
    exact absurd h2 (by simp)
  · refine processAll_idleInv _ _ _ _ hnd (fun x hx => hx) ?_
    intro hfalse
    have h2 : hasRunningB st = false := hfalse
    rw [hrun] at h2
    exact absurd h2 (by simp)
  · intro hfalse
    have h2 : hasRunningB st = false := hfalse
    rw [hrun] at h2
    exact absurd h2 (by simp)
  · refine processAll_idleInv _ _ _ _ hnd (fun x hx => hx) ?_
    intro hfalse
    have h2 : hasRunningB st = false := hfalse
    rw [hrun] at h2
    exact absurd h2 (by simp)

theorem goodState_create (st : EasyState) (value : Option ℚ) (cfg : SpringConfig)
    (h : goodState st) : goodState (doCreate st value cfg).1 := by
  obtain ⟨hE, hnd, hinv⟩ := h
  have hkeys : keysOf (doCreate st value cfg).1 = keysOf st ++ [freshId st] := by
    show (st.springs ++ [_]).map Prod.fst = _
    rw [List.map_append]
    rfl
  refine ⟨?_, ?_, ?_⟩
  · show st.registered ++ [freshId st] = _
    rw [hkeys, hE]
  · rw [hkeys]
    refine List.Nodup.append hnd (List.nodup_singleton _) ?_
    intro a ha hb
    rw [List.mem_singleton] at hb
    subst hb
    exact absurd (mem_lt_freshId st _ ha) (lt_irrefl _)
  · intro hfalse
    show st.raf = false
    have heq : ∀ k ∈ st.registered,
        runningOf (doCreate st value cfg).1 k = runningOf st k := by
      intro k hk
      unfold runningOf lookupSpring
      have hkk : k ∈ st.springs.map Prod.fst := by rw [hE] at hk; exact hk
      rw [show (doCreate st value cfg).1.springs = st.springs ++ [_] from rfl,
          lookupList_append_of_mem _ _ _ hkk]
    have hfalse2 : (st.registered ++ [freshId st]).any
        (runningOf (doCreate st value cfg).1) = false := hfalse
    rw [List.any_append, any_congr_mem _ _ _ heq] at hfalse2
    apply hinv
    show st.registered.any (runningOf st) = false
    cases hh : st.registered.any (runningOf st)
    · rfl
    · rw [hh] at hfalse2
      exact absurd hfalse2 (by simp)

theorem goodState_start (st : EasyState) (id : ℕ) (value : ℚ) (override : SpringConfig)
    (h : goodState st) : goodState (doStart st id value override).1 := by
  obtain ⟨hE, hnd, hinv⟩ := h
  cases hlook : lookupSpring st id with
  | none => rw [doStart_none st id value override hlook]; exact ⟨hE, hnd, hinv⟩
  | some info =>
    rw [doStart_some st id info value override hlook]
    refine ⟨?_, ?_, ?_⟩
    · show (startAnimationFrame _).registered = keysOf (startAnimationFrame _)
      rw [startAnimationFrame_registered, keysOf_startAnim,
          updateRuntime_registered, updateRuntime_keys]
      exact hE
    · rw [keysOf_startAnim, updateRuntime_keys]
      exact hnd
    · intro hfalse
      have hmem : id ∈ (startAnimationFrame (updateRuntime st id
          { goal := value, current := info.runtime.current,
            v := (startConfigOf info.config override).velocity,
            running := true,
            startConfig := some (startConfigOf info.config override) })).registered := by
        rw [startAnimationFrame_registered, updateRuntime_registered, hE]
        exact lookupList_some_mem st.springs id info hlook
      have htrue := hasRunningB_true_of _ id
        { info with runtime :=
            { goal := value, current := info.runtime.current,
              v := (startConfigOf info.config override).velocity,
              running := true, startConfig := some (startConfigOf info.config override) } }
        hmem
        (by rw [lookupSpring_startAnim, lookupSpring_update_self, hlook]; rfl)
        rfl
      have hfalse2 : hasRunningB (startAnimationFrame (updateRuntime st id
          { goal := value, current := info.runtime.current,
            v := (startConfigOf info.config override).velocity,
            running := true,
            startConfig := some (startConfigOf info.config override) })) = false := hfalse
      rw [htrue] at hfalse2
      exact absurd hfalse2 (by simp)

theorem goodState_set (st : EasyState) (id : ℕ) (value : ℚ)
    (h : goodState st) : goodState (doSet st id value).1 := by
  obtain ⟨hE, hnd, hinv⟩ := h
  cases hlook : lookupSpring st id with
  | none => rw [doSet_none st id value hlook]; exact ⟨hE, hnd, hinv⟩
  | some info =>
    rw [doSet_some st id info value hlook]
    refine ⟨?_, ?_, idleInv_checkIdle _⟩
    · show (checkIdle _).registered = keysOf (checkIdle _)
      rw [checkIdle_registered, checkIdle_keys, updateRuntime_registered, updateRuntime_keys]
      exact hE
    · rw [checkIdle_keys, updateRuntime_keys]
      exact hnd

theorem goodState_tick (st : EasyState) (t : ℚ)
    (h : goodState st) : goodState (applyOp st (Op.tick t)).1 := by
  obtain ⟨hE, hnd, hinv⟩ := h
  show goodState (if st.raf then doFrame st t else (st, [])).1
  cases hraf : st.raf
  · exact ⟨hE, hnd, hinv⟩
  · refine ⟨?_, ?_, doFrame_idleInv st t hnd hinv hraf⟩
    · show (doFrame st t).1.registered = keysOf (doFrame st t).1
      rw [doFrame_registered, doFrame_keys]
      exact hE
    · show (keysOf (doFrame st t).1).Nodup
      rw [doFrame_keys]
      exact hnd

theorem goodState_applyOp (st : EasyState) (op : Op) (h : goodState st)
    (hop : isRemoveOp op = false) : goodState (applyOp st op).1 := by
  cases op with
  | create v cfg => exact goodState_create st v cfg h
  | springStart id v c => exact goodState_start st id v c h
  | springSet id v => exact goodState_set st id v h
  | springRemove id => exact absurd hop (by simp [isRemoveOp])
  | tick t => exact goodState_tick st t h

theorem goodState_initState : goodState initState :=
  ⟨rfl, List.nodup_nil, fun _ => rfl⟩

theorem goodState_runOps :
    ∀ (ops : List Op) (st : EasyState), goodState st →
      (∀ op ∈ ops, isRemoveOp op = false) → goodState (runOps st ops).1 := by
  intro ops
  induction ops with
  | nil => intro st h _; exact h
  | cons op rest ih =>
    intro st h hops
    show goodState (runOps (applyOp st op).1 rest).1
    exact ih _ (goodState_applyOp st op h (hops op (List.mem_cons_self _ _)))
      (fun o ho => hops o (List.mem_cons_of_mem _ ho))

/-- C5 (amended): in every state reachable by create/start/set/frame
ticks — without `remove` — if no registered spring is running, no frame
request is pending. -/
theorem c5_idle_shutdown (ops : List Op)
    (hnr : ∀ op ∈ ops, isRemoveOp op = false)
    (hidle : hasRunningB (runOps initState ops).1 = false) :
    (runOps initState ops).1.raf = false :=
  (goodState_runOps ops initState goodState_initState hnr).2.2 hidle

/-- Witness for amended C5: create, start, then teleport with `set`; the
loop is shut down. -/
theorem c5_idle_shutdown_witness :
    (runOps initState [Op.create none noOverride, Op.springStart 1 3 noOverride,
      Op.springSet 1 3]).1.raf = false :=
  c5_idle_shutdown
    [Op.create none noOverride, Op.springStart 1 3 noOverride, Op.springSet 1 3]
    (by decide) (by decide)

/-- C5 counterexample: removing the last running spring leaves the frame
request pending — a reachable state with no running spring but an active
loop, violating the invariant as stated. -/
theorem c5_idle_shutdown_cex :
    hasRunningB (runOps initState [Op.create none noOverride,
      Op.springStart 1 5 noOverride, Op.springRemove 1]).1 = false
    ∧ (runOps initState [Op.create none noOverride,
      Op.springStart 1 5 noOverride, Op.springRemove 1]).1.raf = true := by
  decide

theorem doCreate_keys (st : EasyState) (value : Option ℚ) (cfg : SpringConfig) :
    keysOf (doCreate st value cfg).1 = keysOf st ++ [freshId st] := by
  show (st.springs ++ [_]).map Prod.fst = _
  rw [List.map_append]
  rfl

theorem processOne_events_shape (st : EasyState) (n : ℕ) (dtH : ℚ) (id : ℕ) :
    ∀ ev ∈ (processOne st n dtH id).2, ev = Ev.idleCheck ∨ ∃ kk, ev = Ev.cb id kk := by
  intro ev hev
  cases hlook : lookupSpring st id with
  | none =>
    rw [processOne_none st n dtH id hlook] at hev
    exact absurd hev (by simp)
  | some info =>
    rcases hsl : stepsLoop (info.runtime.startConfig.getD info.config) dtH n info.runtime
      with ⟨rt2, evs, restHit, idle⟩
    rw [processOne_some st n dtH id info hlook,
        processInfo_eq st id info n dtH _ _ _ _ hsl] at hev
    cases restHit <;> cases idle
    · have hev2 : ev ∈ (List.map (Ev.cb id) evs) ++ [Ev.cb id CbKind.change] := hev
      rcases List.mem_append.mp hev2 with h1 | h2
      · obtain ⟨a, _, ha⟩ := List.mem_map.mp h1
        exact Or.inr ⟨a, ha.symm⟩
      · rw [List.mem_singleton] at h2
        exact Or.inr ⟨CbKind.change, h2⟩
    · have hev2 : ev ∈ (List.map (Ev.cb id) evs) ++ [Ev.cb id CbKind.change] := hev
      rcases List.mem_append.mp hev2 with h1 | h2
      · obtain ⟨a, _, ha⟩ := List.mem_map.mp h1
        exact Or.inr ⟨a, ha.symm⟩
      · rw [List.mem_singleton] at h2
        exact Or.inr ⟨CbKind.change, h2⟩
    · have hev2 : ev ∈ (List.map (Ev.cb id) evs) := hev
      obtain ⟨a, _, ha⟩ := List.mem_map.mp hev2
      exact Or.inr ⟨a, ha.symm⟩
    · have hev2 : ev ∈ (List.map (Ev.cb id) evs) ++ [Ev.idleCheck] := hev
      rcases List.mem_append.mp hev2 with h1 | h2
      · obtain ⟨a, _, ha⟩ := List.mem_map.mp h1
        exact Or.inr ⟨a, ha.symm⟩
      · rw [List.mem_singleton] at h2
        exact Or.inl h2

theorem processAll_events_shape (n : ℕ) (dtH : ℚ) :
    ∀ (l : List ℕ) (st : EasyState) (ev : Ev), ev ∈ (processAll n dtH l st).2 →
      ev = Ev.idleCheck ∨ ∃ j ∈ l, ∃ kk, ev = Ev.cb j kk := by
  intro l
  induction l with
  | nil => intro st ev hev; exact absurd hev (by simp [processAll])
  | cons id rest ih =>
    intro st ev hev
    have hev2 : ev ∈ (processOne st n dtH id).2
        ++ (processAll n dtH rest (processOne st n dtH id).1).2 := hev
    rcases List.mem_append.mp hev2 with h1 | h2
    · rcases processOne_events_shape st n dtH id ev h1 with h | ⟨kk, hkk⟩
      · exact Or.inl h
      · exact Or.inr ⟨id, List.mem_cons_self _ _, kk, hkk⟩
    · rcases ih _ ev h2 with h | ⟨j, hj, kk, hkk⟩
      · exact Or.inl h
      · exact Or.inr ⟨j, List.mem_cons_of_mem _ hj, kk, hkk⟩

theorem doFrame_events_shape (st : EasyState) (t : ℚ) (ev : Ev)
    (hev : ev ∈ (doFrame st t).2) :
    ev = Ev.idleCheck ∨ ∃ j ∈ st.registered, ∃ kk, ev = Ev.cb j kk := by
  simp only [doFrame] at hev
  split at hev <;> split at hev
  · exact absurd hev (by simp)
  · rcases processAll_events_shape _ _ _ _ _ hev with h | ⟨j, hj, kk, hkk⟩
    · exact Or.inl h
    · exact Or.inr ⟨j, hj, kk, hkk⟩
  · exact absurd hev (by simp)
  · rcases processAll_events_shape _ _ _ _ _ hev with h | ⟨j, hj, kk, hkk⟩
    · exact Or.inl h
    · exact Or.inr ⟨j, hj, kk, hkk⟩

theorem step_keeps_heap (st : EasyState) (op : Op) (id : ℕ) (h : id ∈ keysOf st) :
    id ∈ keysOf (applyOp st op).1 := by
  cases op with
  | create v cfg =>
    show id ∈ keysOf (doCreate st v cfg).1
    rw [doCreate_keys]
    exact List.mem_append.mpr (Or.inl h)
  | springStart j v c =>
    show id ∈ keysOf (doStart st j v c).1
    cases hlook : lookupSpring st j with
    | none => rw [doStart_none st j v c hlook]; exact h
    | some info =>
      rw [doStart_some st j info v c hlook]
      show id ∈ keysOf (startAnimationFrame (updateRuntime st j _))
      rw [keysOf_startAnim, updateRuntime_keys]
      exact h
  | springSet j v =>
    show id ∈ keysOf (doSet st j v).1
    cases hlook : lookupSpring st j with
    | none => rw [doSet_none st j v hlook]; exact h
    | some info =>
      rw [doSet_some st j info v hlook]
      show id ∈ keysOf (checkIdle (updateRuntime st j _))
      rw [checkIdle_keys, updateRuntime_keys]
      exact h
  | springRemove j => exact h
  | tick t =>
    show id ∈ keysOf (if st.raf then doFrame st t else (st, [])).1
    cases hraf : st.raf
    · exact h
    · show id ∈ keysOf (doFrame st t).1
      rw [doFrame_keys]
      exact h

theorem step_keeps_unreg (st : EasyState) (op : Op) (id : ℕ)
    (hheap : id ∈ keysOf st) (hreg : id ∉ st.registered) :
    id ∉ (applyOp st op).1.registered := by
  cases op with
  | create v cfg =>
    show id ∉ st.registered ++ [freshId st]
    intro hmem
    rcases List.mem_append.mp hmem with h1 | h2
    · exact hreg h1
    · rw [List.mem_singleton] at h2
      subst h2
      exact absurd (mem_lt_freshId st _ hheap) (lt_irrefl _)
  | springStart j v c =>
    show id ∉ (doStart st j v c).1.registered
    cases hlook : lookupSpring st j with
    | none => rw [doStart_none st j v c hlook]; exact hreg
    | some info =>
      rw [doStart_some st j info v c hlook]
      show id ∉ (startAnimationFrame (updateRuntime st j _)).registered
      rw [startAnimationFrame_registered, updateRuntime_registered]
      exact hreg
  | springSet j v =>
    show id ∉ (doSet st j v).1.registered
    cases hlook : lookupSpring st j with
    | none => rw [doSet_none st j v hlook]; exact hreg
    | some info =>
      rw [doSet_some st j info v hlook]
      show id ∉ (checkIdle (updateRuntime st j _)).registered
      rw [checkIdle_registered, updateRuntime_registered]
      exact hreg
  | springRemove j =>
    show id ∉ st.registered.filter (fun kk => kk ≠ j)
    intro hmem
    exact hreg (List.mem_of_mem_filter hmem)
  | tick t =>
    show id ∉ (if st.raf then doFrame st t else (st, [])).1.registered
    cases hraf : st.raf
    · exact hreg
    · show id ∉ (doFrame st t).1.registered
      rw [doFrame_registered]
      exact hreg

theorem step_no_cb (st : EasyState) (op : Op) (id : ℕ) (k : CbKind)
    (hreg : id ∉ st.registered) (hop : opTargets id op = false) :
    Ev.cb id k ∉ (applyOp st op).2 := by
  intro hmem
  cases op with
  | create v cfg => exact absurd hmem (by simp [applyOp, doCreate])
  | springStart j v c =>
    have hji : j ≠ id := by
      intro hh
      rw [hh] at hop
      simp [opTargets] at hop
    have hmem2 : Ev.cb id k ∈ (doStart st j v c).2 := hmem
    cases hlook : lookupSpring st j with
    | none =>
      rw [doStart_none st j v c hlook] at hmem2
      exact absurd hmem2 (by simp)
    | some info =>
      rw [doStart_some st j info v c hlook] at hmem2
      rw [List.mem_singleton] at hmem2
      injection hmem2 with ha hb
      exact hji ha.symm
  | springSet j v =>
    have hji : j ≠ id := by
      intro hh
      rw [hh] at hop
      simp [opTargets] at hop
    have hmem2 : Ev.cb id k ∈ (doSet st j v).2 := hmem
    cases hlook : lookupSpring st j with
    | none =>
      rw [doSet_none st j v hlook] at hmem2
      exact absurd hmem2 (by simp)
    | some info =>
      rw [doSet_some st j info v hlook] at hmem2
      rcases List.mem_append.mp hmem2 with h1 | h2
      · by_cases hv : v = info.runtime.current
        · rw [if_pos hv] at h1
          exact absurd h1 (by simp)
        · rw [if_neg hv] at h1
          rw [List.mem_singleton] at h1
          injection h1 with ha hb
          exact hji ha.symm
      · rw [List.mem_singleton] at h2
        exact Ev.noConfusion h2
  | springRemove j => exact absurd hmem (by simp [applyOp, doRemove])
  | tick t =>
    have hmem2 : Ev.cb id k ∈ (if st.raf then doFrame st t else (st, [])).2 := hmem
    cases hraf : st.raf
    · rw [hraf] at hmem2
      exact absurd (show Ev.cb id k ∈ ([] : List Ev) from hmem2) (by simp)
    · rw [hraf] at hmem2
      have hmem3 : Ev.cb id k ∈ (doFrame st t).2 := hmem2
      rcases doFrame_events_shape st t _ hmem3 with h | ⟨j, hj, kk, hkk⟩
      · exact Ev.noConfusion h
      · injection hkk with ha hb
        rw [ha] at hreg
        exact hreg hj

/-- C6 (amended): once a spring is out of the registry, no scheduler
tick and no operation on other springs ever fires its callbacks again;
only a direct `set`/`start` call on the removed controller itself (which
acts through its closure) can still do so. -/
theorem c6_no_callback_after_remove (id : ℕ) :
    ∀ (ops : List Op) (st : EasyState), id ∈ keysOf st → id ∉ st.registered →
      (∀ op ∈ ops, opTargets id op = false) →
      ∀ k, Ev.cb id k ∉ (runOps st ops).2 := by
  intro ops
  induction ops with
  | nil =>
    intro st _ _ _ k h
    exact absurd h (by simp [runOps])
  | cons op rest ih =>
    intro st hheap hreg hops k h
    have h2 : Ev.cb id k ∈ (applyOp st op).2 ++ (runOps (applyOp st op).1 rest).2 := h
    rcases List.mem_append.mp h2 with hfirst | hrest
    · exact step_no_cb st op id k hreg (hops op (List.mem_cons_self _ _)) hfirst
    · exact (ih (applyOp st op).1 (step_keeps_heap st op id hheap)
        (step_keeps_unreg st op id hheap hreg)
        (fun o ho => hops o (List.mem_cons_of_mem _ ho)) k) hrest

/-- Witness for amended C6: after spring 1 is removed, creating another
spring, starting it, and ticking the loop never fires spring 1's
callbacks. -/
theorem c6_no_callback_after_remove_witness :
    Ev.cb 1 CbKind.change ∉ (runOps
      ((runOps initState [Op.create none noOverride, Op.springRemove 1]).1)
      [Op.create none noOverride, Op.springStart 2 4 noOverride, Op.tick 0]).2 :=
  c6_no_callback_after_remove 1
    [Op.create none noOverride, Op.springStart 2 4 noOverride, Op.tick 0]
    ((runOps initState [Op.create none noOverride, Op.springRemove 1]).1)
    (by decide) (by decide) (by decide) CbKind.change

/-- C6 counterexample: `set(5)` on a removed controller still fires its
`onChange` — the trace of create, remove, set contains the removed
spring's callback after the removal. -/
theorem c6_no_callback_after_remove_cex :
    (runOps initState [Op.create none noOverride, Op.springRemove 1,
      Op.springSet 1 5]).2 = [Ev.cb 1 CbKind.change, Ev.idleCheck] := by
  decide

theorem processOne_lookup_ne (st : EasyState) (n : ℕ) (dtH : ℚ) (id j : ℕ)
    (hji : j ≠ id) :
    lookupSpring (processOne st n dtH id).1 j = lookupSpring st j := by
  cases hlook : lookupSpring st id with
  | none => rw [processOne_none st n dtH id hlook]
  | some info =>
    rcases hsl : stepsLoop (info.runtime.startConfig.getD info.config) dtH n info.runtime
      with ⟨rt2, evs, restHit, idle⟩
    rw [processOne_some st n dtH id info hlook,
        processInfo_eq st id info n dtH _ _ _ _ hsl]
    cases restHit <;> cases idle
    all_goals
      first
      | (show lookupSpring (checkIdle (updateRuntime st id rt2)) j = _
         rw [lookupSpring_checkIdle, lookupSpring_update_ne st id j _ hji])
      | (show lookupSpring (updateRuntime st id rt2) j = _
         rw [lookupSpring_update_ne st id j _ hji])

theorem processOne_lookup_self (st : EasyState) (n : ℕ) (dtH : ℚ) (id : ℕ)
    (info : SpringInfo) (hlook : lookupSpring st id = some info) :
    lookupSpring (processOne st n dtH id).1 id
      = some { info with runtime :=
          (stepsLoop (info.runtime.startConfig.getD info.config) dtH n info.runtime).1 } := by
  rcases hsl : stepsLoop (info.runtime.startConfig.getD info.config) dtH n info.runtime
    with ⟨rt2, evs, restHit, idle⟩
  rw [processOne_some st n dtH id info hlook,
      processInfo_eq st id info n dtH _ _ _ _ hsl]
  cases restHit <;> cases idle
  all_goals
    first
    | (show lookupSpring (checkIdle (updateRuntime st id rt2)) id = _
       rw [lookupSpring_checkIdle, lookupSpring_update_self, hlook]
       rfl)
    | (show lookupSpring (updateRuntime st id rt2) id = _
       rw [lookupSpring_update_self, hlook]
       rfl)

theorem processAll_lookup_notmem (n : ℕ) (dtH : ℚ) :
    ∀ (l : List ℕ) (st : EasyState) (j : ℕ), j ∉ l →
      lookupSpring (processAll n dtH l st).1 j = lookupSpring st j := by
  intro l
  induction l with
  | nil => intro st j _; rfl
  | cons id rest ih =>
    intro st j hj
    rw [List.mem_cons, not_or] at hj
    show lookupSpring (processAll n dtH rest (processOne st n dtH id).1).1 j = _
    rw [ih _ _ hj.2, processOne_lookup_ne st n dtH id j hj.1]

theorem processAll_lookup_mem (n : ℕ) (dtH : ℚ) :
    ∀ (l : List ℕ) (st : EasyState) (id : ℕ) (info : SpringInfo),
      l.Nodup → id ∈ l → lookupSpring st id = some info →
      lookupSpring (processAll n dtH l st).1 id
        = some { info with runtime :=
            (stepsLoop (info.runtime.startConfig.getD info.config) dtH n
              info.runtime).1 } := by
  intro l
  induction l with
  | nil => intro st id info _ hmem _; exact absurd hmem (by simp)
  | cons hd rest ih =>
    intro st id info hnd hmem hlook
    rw [List.nodup_cons] at hnd
    rcases List.mem_cons.mp hmem with rfl | hmem2
    · show lookupSpring (processAll n dtH rest (processOne st n dtH id).1).1 id = _
      rw [processAll_lookup_notmem n dtH rest _ id hnd.1,
          processOne_lookup_self st n dtH id info hlook]
    · have hne : id ≠ hd := fun hh => hnd.1 (hh ▸ hmem2)
      show lookupSpring (processAll n dtH rest (processOne st n dtH hd).1).1 id = _
      exact ih _ id info hnd.2 hmem2
        (by rw [processOne_lookup_ne st n dtH hd id hne, hlook])

/-- C10: a frame tick processes every spring in the registry — the
running flag is not consulted when selecting springs — so a spring
created with a nonzero initial value and never started or set begins
animating toward goal 0 on its own once the loop is active: in the
concrete scenario `c10Ops`, spring 1 (created with value 1, never
targeted by any `start`/`set`) fires `onChange` on each working frame,
becomes running, and finally fires `onRest`, after which the scheduler
stops itself. -/
theorem c10_registry_scan :
    (∀ (st : EasyState) (id : ℕ) (info : SpringInfo) (n : ℕ) (dtH : ℚ),
      st.registered.Nodup → id ∈ st.registered → lookupSpring st id = some info →
      lookupSpring (processAll n dtH st.registered st).1 id
        = some { info with runtime :=
            (stepsLoop (info.runtime.startConfig.getD info.config) dtH n
              info.runtime).1 })
    ∧ (runOps initState c10Ops).2
        = [Ev.cb 2 CbKind.started, Ev.cb 1 CbKind.change, Ev.cb 2 CbKind.change,
           Ev.cb 1 CbKind.change, Ev.cb 2 CbKind.rest, Ev.idleCheck,
           Ev.cb 1 CbKind.change, Ev.cb 1 CbKind.rest, Ev.idleCheck]
    ∧ (∀ op ∈ c10Ops, opTargets 1 op = false)
    ∧ runningOf (runOps initState (c10Ops.take 5)).1 1 = true
    ∧ runningOf (runOps initState c10Ops).1 1 = false
    ∧ (runOps initState c10Ops).1.raf = false := by
  refine ⟨fun st id info n dtH hnd hmem hlook =>
    processAll_lookup_mem n dtH st.registered st id info hnd hmem hlook,
    ?_, by decide, ?_, ?_, ?_⟩
  all_goals
    norm_num [runOps, applyOp, doCreate, doStart, doSet, doRemove, doFrame, processAll,
      processOne, processInfo, stepsLoop, subStep, eulerStep, checkIdle, hasRunningB,
      runningOf, stopAnimationFrame, startAnimationFrame, lookupSpring, lookupList,
      updateRuntime, updateList, freshId, initState, noOverride, c10Cfg, c10Ops,
      mergeOver, toPartial, startConfigOf, springDefaultConfig, jsRound, frameResolution,
      keysOf, abs_lt]

/-- Witness for C10: the registry-wide processing theorem applied to the
concrete two-spring state, where spring 1 is not running and is still
advanced. -/
theorem c10_registry_scan_witness :
    lookupSpring (processAll 1 (1/6) c10StateW.registered c10StateW).1 1
      = some { c10InfoA with runtime :=
          (stepsLoop (c10InfoA.runtime.startConfig.getD c10InfoA.config) (1/6) 1
            c10InfoA.runtime).1 } :=
  c10_registry_scan.1 c10StateW 1 c10InfoA 1 (1/6) (by decide) (by decide) rfl
